import Mathlib

/-!
Shallow embedding of `src/scripts/resolve-runtime-deps-from-metadata.py`
(the runtime-dependency resolver of XxInvictus/mc_universal_workflow),
together with theorems checking its natural-language specification.

Python strings are modelled as `List Char` (`Str`); Python's `re` calls are
embedded as the recursive character scanners they denote on the patterns the
script uses; datetimes are `PyInstant` — parsed (offset-aware) instants
abstracted order-isomorphically to `Nat`, kept apart from the offset-naive
`datetime.min` fallback, against which Python refuses to order them.
Fallible code paths return `Except`/`Option`.
-/

namespace MCResolve

/-- Python `str` modelled as a list of characters. -/
abbrev Str := List Char

/-- Convert a Lean string literal to the `Str` model. -/
def toStr (s : String) : Str := s.data

/-- Python whitespace for `str.strip()` (ASCII part; the script only ever
strips manifest-supplied version ranges). -/
def pySpace (c : Char) : Bool :=
  c = ' ' || c = '\t' || c = '\n' || c = '\r' || c = '\x0b' || c = '\x0c'

/-- `s.lstrip()`. -/
def lstrip (s : Str) : Str := s.dropWhile pySpace

/-- `s.rstrip()`. -/
def rstrip (s : Str) : Str := (s.reverse.dropWhile pySpace).reverse

/-- Python `s.strip()`. -/
def strip (s : Str) : Str := rstrip (lstrip s)

/-- Python `hay.startswith(pre)` / checking a literal prefix. -/
def startsWithStr : Str → Str → Bool
  | _, [] => true
  | [], _ :: _ => false
  | c :: s, p :: ps => c = p && startsWithStr s ps

/-- Python `hay.endswith(suf)` for the one-character suffixes the script uses. -/
def endsWithStr (s suf : Str) : Bool := startsWithStr s.reverse suf.reverse

/-- Python `needle in hay` (substring containment; `"" in hay` is true). -/
def isSubstr (needle : Str) : Str → Bool
  | [] => needle = ([] : Str)
  | c :: t => startsWithStr (c :: t) needle || isSubstr needle t

/-- ASCII decimal digit, the `\d` of the script's regexes on its inputs. -/
def isDigitChar (c : Char) : Bool := '0' ≤ c && c ≤ '9'

/-- Numeric value of a decimal digit character. -/
def digitVal (c : Char) : Nat := c.toNat - '0'.toNat

/-- `re.findall(r"\d+", s)` composed with `int`: the maximal digit runs of
`s`, in order, each converted to the natural number it spells.
`acc = some n` means the scanner is inside a run whose value so far is `n`. -/
def digitRunsAux : Str → Option Nat → List Nat
  | [], none => []
  | [], some n => [n]
  | c :: rest, none =>
      if isDigitChar c then digitRunsAux rest (some (digitVal c))
      else digitRunsAux rest none
  | c :: rest, some n =>
      if isDigitChar c then digitRunsAux rest (some (n * 10 + digitVal c))
      else n :: digitRunsAux rest none

/-- `parse_version_key` (lines 322-328): the integer tuple of all maximal
digit runs of the version string, `(0,)` when there are none. -/
def parse_version_key (s : Str) : List Nat :=
  let nums := digitRunsAux s none
  if nums = [] then [0] else nums

/-- Python tuple comparison `ka < kb` on integer tuples (lexicographic,
a proper prefix is smaller). -/
def tupLt : List Nat → List Nat → Bool
  | [], [] => false
  | [], _ :: _ => true
  | _ :: _, [] => false
  | a :: x, b :: y => if a < b then true else if b < a then false else tupLt x y

/-- `compare_versions` (lines 331-340). -/
def compare_versions (a b : Str) : Int :=
  let ka := parse_version_key a
  let kb := parse_version_key b
  if tupLt ka kb then -1
  else if tupLt kb ka then 1
  else 0

/-- Spec-side three-way lexicographic comparison of integer tuples, written
from the spec's words ("compare tuples lexicographically by component"):
used to check `compare_versions` against the specification. -/
def lexCompare : List Nat → List Nat → Int
  | [], [] => 0
  | [], _ :: _ => -1
  | _ :: _, [] => 1
  | a :: x, b :: y =>
      if a < b then -1 else if b < a then 1 else lexCompare x y

/-- The `Constraint` dataclass (lines 343-346). -/
structure Constraint where
  op : Str
  version : Str
deriving DecidableEq, Repr

/-- Decimal rendering of a natural number, the Python f-string `f"{n}"`
for the nonnegative integers the script formats. -/
def natToStr (n : Nat) : Str := Nat.toDigits 10 n

/-- `expand_semver_compat` (lines 349-364): expand `^`/`~` into a `>=` and a
`<` constraint.  `key` is always nonempty, so `major = key[0]`. -/
def expand_semver_compat (op version : Str) : List Constraint :=
  let key := parse_version_key version
  let major := key.headD 0
  let minor := key.getD 1 0
  let upper : Str :=
    if op = toStr "~" then
      natToStr major ++ toStr "." ++ natToStr (minor + 1) ++ toStr ".0"
    else  -- "^"
      if major ≠ 0 then natToStr (major + 1) ++ toStr ".0.0"
      else toStr "0." ++ natToStr (minor + 1) ++ toStr ".0"
  [⟨toStr ">=", version⟩, ⟨toStr "<", upper⟩]

/-- Separator characters of `re.split(r"\s+|\s*,\s*", s)`: the pattern's
matches tile exactly the whitespace and comma characters of `s`, so the
nonempty fragments are the maximal runs of non-separator characters
(the loop at lines 402-404 skips the empty fragments). -/
def isSepChar (c : Char) : Bool := pySpace c || c = ','

/-- Split a string at every separator character (`acc` is the current
fragment, reversed). -/
def splitSepsAux : Str → Str → List Str
  | [], acc => [acc.reverse]
  | c :: t, acc =>
      if isSepChar c then acc.reverse :: splitSepsAux t []
      else splitSepsAux t (c :: acc)

/-- The fragments `re.split(r"\s+|\s*,\s*", s)` yields, empty ones included. -/
def splitSeps (s : Str) : List Str := splitSepsAux s []

/-- The comparator alternatives of `re.match(r"^(>=|<=|>|<|=)?\s*(.+)$", part)`
in the order the regex engine tries them. -/
def opList : List Str := [toStr ">=", toStr "<=", toStr ">", toStr "<", toStr "="]

/-- One iteration of the token loop (lines 402-411): `none` means the token
is skipped.  The regex match with backtracking commits to the first
alternative comparator that is a proper prefix of the token (`(.+)` must
still consume at least one character); with no comparator the whole token is
the version and the operator defaults to `=`.  Tokens are fragments of
`splitSeps`, hence contain no whitespace. -/
def tokenConstraint (part : Str) : Option Constraint :=
  if part = [] then none
  else
    match opList.find? (fun op => startsWithStr part op && decide (op.length < part.length)) with
    | some op =>
        let version := strip (part.drop op.length)
        if version = [] then none else some ⟨op, version⟩
    | none =>
        let version := strip part
        if version = [] then none else some ⟨toStr "=", version⟩

/-- The token loop of lines 401-411. -/
def tokenLoop : List Str → List Constraint
  | [] => []
  | part :: rest =>
      match tokenConstraint part with
      | none => tokenLoop rest
      | some c => c :: tokenLoop rest

/-- `inner.split(",", 1)`: split at the first comma; `none` when there is no
comma (in Python the two-name unpacking of a one-element list would raise). -/
def splitFirstComma : Str → Option (Str × Str)
  | [] => none
  | c :: t =>
      if c = ',' then some ([], t)
      else (splitFirstComma t).map (fun p => (c :: p.1, p.2))

/-- `parse_constraints` (lines 367-413).  The `splitFirstComma … | none`
branch is unreachable (the guard guarantees a comma strictly inside the
brackets; in Python it would be a `ValueError`): `parse_constraints_checked`
below models that failure and `C8` proves it never fires. -/
def parse_constraints (range_str : Str) : List Constraint :=
  let s := strip range_str
  if s = [] then []
  else if s = toStr "*" then []
  else if (startsWithStr s (toStr "[") || startsWithStr s (toStr "(")) &&
          (endsWithStr s (toStr "]") || endsWithStr s (toStr ")")) &&
          isSubstr (toStr ",") s then
    let left_inclusive := startsWithStr s (toStr "[")
    let right_inclusive := endsWithStr s (toStr "]")
    let inner := (s.drop 1).dropLast
    match splitFirstComma inner with
    | some (loRaw, hiRaw) =>
        let lo := strip loRaw
        let hi := strip hiRaw
        (if lo ≠ [] then [⟨if left_inclusive then toStr ">=" else toStr ">", lo⟩] else [])
          ++ (if hi ≠ [] then [⟨if right_inclusive then toStr "<=" else toStr "<", hi⟩] else [])
    | none => []
  else if startsWithStr s (toStr "^") then expand_semver_compat (toStr "^") (strip (s.drop 1))
  else if startsWithStr s (toStr "~") then expand_semver_compat (toStr "~") (strip (s.drop 1))
  else tokenLoop (splitSeps s)

/-- `parse_constraints` with the one Python operation that could raise — the
two-name unpacking of `inner.split(",", 1)` — made explicit as `Option`. -/
def parse_constraints_checked (range_str : Str) : Option (List Constraint) :=
  let s := strip range_str
  if s = [] then some []
  else if s = toStr "*" then some []
  else if (startsWithStr s (toStr "[") || startsWithStr s (toStr "(")) &&
          (endsWithStr s (toStr "]") || endsWithStr s (toStr ")")) &&
          isSubstr (toStr ",") s then
    let left_inclusive := startsWithStr s (toStr "[")
    let right_inclusive := endsWithStr s (toStr "]")
    let inner := (s.drop 1).dropLast
    match splitFirstComma inner with
    | some (loRaw, hiRaw) =>
        let lo := strip loRaw
        let hi := strip hiRaw
        some ((if lo ≠ [] then [⟨if left_inclusive then toStr ">=" else toStr ">", lo⟩] else [])
          ++ (if hi ≠ [] then [⟨if right_inclusive then toStr "<=" else toStr "<", hi⟩] else []))
    | none => none
  else if startsWithStr s (toStr "^") then some (expand_semver_compat (toStr "^") (strip (s.drop 1)))
  else if startsWithStr s (toStr "~") then some (expand_semver_compat (toStr "~") (strip (s.drop 1)))
  else some (tokenLoop (splitSeps s))

/-- `satisfies_constraints` (lines 416-439), with the Python early returns. -/
def satisfies_constraints (version : Str) : List Constraint → Bool
  | [] => true
  | c :: rest =>
      let cmp_val := compare_versions version c.version
      if c.op = toStr ">" then
        if cmp_val ≤ 0 then false else satisfies_constraints version rest
      else if c.op = toStr ">=" then
        if cmp_val < 0 then false else satisfies_constraints version rest
      else if c.op = toStr "<" then
        if cmp_val ≥ 0 then false else satisfies_constraints version rest
      else if c.op = toStr "<=" then
        if cmp_val > 0 then false else satisfies_constraints version rest
      else if c.op = toStr "=" then
        if cmp_val ≠ 0 then false else satisfies_constraints version rest
      else false

/-- Spec-side single-constraint satisfaction, written from the spec's words:
a candidate meets a constraint when `compare` against the bound lands on the
side the operator demands, and a constraint with an unrecognized operator is
never met. -/
def meetsConstraint (version : Str) (c : Constraint) : Bool :=
  let cmp := compare_versions version c.version
  if c.op = toStr "=" then cmp = 0
  else if c.op = toStr ">" then 0 < cmp
  else if c.op = toStr ">=" then 0 ≤ cmp
  else if c.op = toStr "<" then cmp < 0
  else if c.op = toStr "<=" then cmp ≤ 0
  else false

/-- The `Dependency` dataclass (lines 44-51). -/
structure Dependency where
  mod_id : Str
  version_range : Str
  modrinth : Option Str
  curseforge : Option Str
deriving DecidableEq, Repr

/-- The `ResolvedDependency` dataclass (lines 54-63). -/
structure ResolvedDependency where
  source_type : Str
  name : Str
  modrinth_id : Option Str := none
  modrinth_version : Option Str := none
  curseforge_id : Option Str := none
  curseforge_file_id : Option Str := none
deriving DecidableEq, Repr

/-- Python truthiness of an `Optional[str]`: not `None` and nonempty. -/
def optTruthy : Option Str → Bool
  | none => false
  | some s => s ≠ ([] : Str)

/-- A Python `datetime` as the script produces sort keys: a parsed
`fromisoformat(value.replace("Z", "+00:00"))` result is offset-*aware*
(abstracted order-isomorphically to `Nat`), while the `datetime.min`
fallback for an absent/unparseable value is offset-*naive*.  Python refuses
to order a naive against an aware datetime (`TypeError`), so the two kinds
must stay distinguishable. -/
inductive PyInstant where
  | aware (t : Nat)
  | naiveMin
deriving DecidableEq, Repr

/-- Whether a `PyInstant` is an offset-aware (parsed) datetime. -/
def PyInstant.isAware : PyInstant → Bool
  | .aware _ => true
  | .naiveMin => false

/-- Python `<=` on datetimes of the same kind.  The mixed arms are never
consulted: `pySortByDT` raises before comparing a naive with an aware
value (their values only keep the function total). -/
def dtLeB : PyInstant → PyInstant → Bool
  | .aware a, .aware b => a ≤ b
  | .naiveMin, .naiveMin => true
  | .naiveMin, .aware _ => true
  | .aware _, .naiveMin => false

/-- `list.sort(key=f)` on datetime keys.  CPython compares adjacent
elements while detecting runs, so a list holding both a naive and an aware
key always attempts a naive/aware comparison and raises `TypeError`; a
homogeneous list sorts normally, and the stable sort by a total preorder is
unique, so it is modelled by `List.insertionSort`. -/
def pySortByDT {α : Type} (f : α → PyInstant) (l : List α) : Except Str (List α) :=
  if (l.any fun a => (f a).isAware) && (l.any fun a => !(f a).isAware) then
    Except.error (toStr "TypeError: can't compare offset-naive and offset-aware datetimes")
  else
    Except.ok (l.insertionSort (fun a b => dtLeB (f a) (f b)))

/-- One entry of the Catalog A (Modrinth) version listing, reduced to the two
fields the script reads.  `version_number = none` covers both a non-`dict`
entry and a `dict` without a string `version_number` — the loop at lines
468-476 skips either the same way.  `date_published = some t` is the parsed
(offset-aware) timestamp, abstracted order-isomorphically to `Nat`; `none`
covers an absent, non-string or unparseable value (all mapped to the naive
`datetime.min` by `published_dt`, lines 484-491). -/
structure MRVersion where
  version_number : Option Str
  date_published : Option Nat
deriving DecidableEq, Repr

/-- `published_dt` (lines 484-491): the parsed aware datetime, or the naive
`datetime.min` fallback. -/
def published_dt (v : MRVersion) : PyInstant :=
  match v.date_published with
  | some t => .aware t
  | none => .naiveMin

/-- One entry of the Catalog B (CurseForge) file listing, reduced to the
fields the script reads.  `id = none`: missing or non-`int` (catalog file
ids are nonnegative, so `Nat`); `gameVersions =
none`: missing or non-list; `fileDate` as in `MRVersion.date_published`;
`fileName`/`displayName = none`: falsy value (`str(item.get(...) or "")`
yields the empty string), `some s`: the `str(...)` rendering of a truthy
value. -/
structure CFFile where
  id : Option Nat
  gameVersions : Option (List Str)
  fileDate : Option Nat
  fileName : Option Str
  displayName : Option Str
deriving DecidableEq, Repr

/-- `file_dt` (lines 539-546): the parsed aware datetime, or the naive
`datetime.min` fallback (the same naive/aware split as `published_dt`). -/
def file_dt (f : CFFile) : PyInstant :=
  match f.fileDate with
  | some t => .aware t
  | none => .naiveMin

/-- `resolve_modrinth` (lines 442-502) after the HTTP fetch: `versions =
none` models a response that is not a JSON list (line 462's error).  A
transport failure would likewise abort the run.  `candidates.sort` is
`pySortByDT`: it raises when dated and undated candidates mix. -/
def resolve_modrinth_pure (dep : Dependency) (loader minecraft_version policy : Str)
    (versions : Option (List MRVersion)) : Except Str ResolvedDependency :=
  if ¬ optTruthy dep.modrinth then Except.error (toStr "AssertionError: dep.modrinth")
  else
    match versions with
    | none => Except.error (toStr "Unexpected Modrinth response for '" ++ dep.modrinth.getD [] ++ toStr "'")
    | some vs =>
      let constraints := parse_constraints dep.version_range
      let candidates := vs.filter (fun v =>
        match v.version_number with
        | none => false
        | some vn => decide (vn ≠ ([] : Str)) &&
            (decide (constraints = []) || satisfies_constraints vn constraints))
      if candidates = [] then
        Except.error (toStr "No Modrinth versions for " ++ dep.mod_id ++ toStr " (" ++
          dep.modrinth.getD [] ++ toStr ") satisfy range '" ++ dep.version_range ++
          toStr "' for loader=" ++ loader ++ toStr " mc=" ++ minecraft_version)
      else
        match pySortByDT published_dt candidates with
        | Except.error e => Except.error e
        | Except.ok sorted =>
          match (if policy = toStr "min" then sorted.head? else sorted.getLast?) with
          | none => Except.error (toStr "IndexError")
          | some chosen =>
              Except.ok { source_type := toStr "modrinth", name := dep.mod_id,
                          modrinth_id := dep.modrinth,
                          modrinth_version := some (chosen.version_number.getD []) }

/-- `curseforge_expected_loader_label` (lines 505-508); `none` is Python's
`KeyError` for a loader outside the mapping. -/
def curseforge_expected_loader_label (loader : Str) : Option Str :=
  if loader = toStr "forge" then some (toStr "Forge")
  else if loader = toStr "neoforge" then some (toStr "NeoForge")
  else if loader = toStr "fabric" then some (toStr "Fabric")
  else none

/-- The best-effort exact-range narrowing step of `resolve_curseforge`
(lines 567-584).  The match arm `[c], true` is exactly the Python condition
`constraints and all(c.op == "=" for c in constraints) and len(constraints) == 1`. -/
def cf_narrow (dep : Dependency) (filtered : List CFFile) : Except Str (List CFFile) :=
  let exact := strip dep.version_range
  let constraints := parse_constraints exact
  match constraints, constraints.all (fun c => c.op = toStr "=") with
  | [c], true =>
      let needle := c.version
      let narrowed := filtered.filter (fun f =>
        isSubstr needle (f.fileName.getD []) || isSubstr needle (f.displayName.getD []))
      if narrowed ≠ [] then Except.ok narrowed
      else Except.error (toStr "CurseForge dependency " ++ dep.mod_id ++
        toStr " has exact range '" ++ dep.version_range ++
        toStr "' but no fileName/displayName contains it")
  | _, _ => Except.ok filtered

/-- `resolve_curseforge` (lines 511-598) after the HTTP fetch:
`payload_data = none` models a payload whose `data` is not a list (line
537's error).  Sorting as in `resolve_modrinth_pure`. -/
def resolve_curseforge_pure (dep : Dependency) (loader minecraft_version policy : Str)
    (payload_data : Option (List CFFile)) : Except Str ResolvedDependency :=
  if ¬ optTruthy dep.curseforge then Except.error (toStr "AssertionError: dep.curseforge")
  else
    let cfAlias := dep.curseforge.getD []
    if (decide (cfAlias ≠ ([] : Str)) && cfAlias.all isDigitChar) = false then
      Except.error (toStr "CurseForge alias for dependency " ++ dep.mod_id ++
        toStr " must be a numeric project id; got '" ++ cfAlias ++ toStr "'")
    else
      let mod_id := cfAlias
      match curseforge_expected_loader_label loader with
      | none => Except.error (toStr "KeyError: unsupported loader")
      | some label =>
        match payload_data with
        | none => Except.error (toStr "Unexpected CurseForge response for mod id " ++ mod_id)
        | some data =>
          let filtered := data.filter (fun f =>
            match f.gameVersions with
            | none => false
            | some gvs => decide (minecraft_version ∈ gvs) && decide (label ∈ gvs))
          if filtered = [] then
            Except.error (toStr "No CurseForge files for " ++ dep.mod_id ++ toStr " (" ++
              mod_id ++ toStr ") match loader=" ++ label ++ toStr " mc=" ++ minecraft_version)
          else
            match cf_narrow dep filtered with
            | Except.error e => Except.error e
            | Except.ok kept =>
              match pySortByDT file_dt kept with
              | Except.error e => Except.error e
              | Except.ok sorted =>
                match (if policy = toStr "min" then sorted.head? else sorted.getLast?) with
                | none => Except.error (toStr "IndexError")
                | some chosen =>
                    match chosen.id with
                    | none => Except.error (toStr "CurseForge file entry missing numeric id for " ++ mod_id)
                    | some fid =>
                        Except.ok { source_type := toStr "curseforge", name := dep.mod_id,
                                    curseforge_id := some mod_id,
                                    curseforge_file_id := some (natToStr fid) }

/-- The per-platform aliases an alias map yields for one dependency id
(`aliases.get("modrinth")` / `aliases.get("curseforge")`). -/
structure AliasPair where
  modrinth : Option Str
  curseforge : Option Str
deriving DecidableEq, Repr

/-- The range normalization shared by the extractors: a non-string
(`none`) or blank range becomes `"*"`, otherwise the range is stripped. -/
def normalizeRange (vr : Option Str) : Str :=
  match vr with
  | none => toStr "*"
  | some v => if strip v = [] then toStr "*" else strip v

/-- The dependency loop of `read_fabric_dependencies` (lines 157-176), over
the decoded `depends` object (an insertion-ordered map of string keys to
range values, `none` marking a non-string value) and the alias map from
`custom.mc-publish.dependencies`. -/
def read_fabric_dependencies_core (depends : List (Str × Option Str))
    (alias_map : Str → AliasPair) : List Dependency :=
  depends.filterMap (fun item =>
    if item.1 ∈ ([toStr "minecraft", toStr "java", toStr "fabricloader"] : List Str) then none
    else some { mod_id := item.1,
                version_range := normalizeRange item.2,
                modrinth := (alias_map item.1).modrinth,
                curseforge := (alias_map item.1).curseforge })

/-- The nested `mc-publish` table of a Forge dependency entry.
`curseforge = some s` is the `str(cf).strip()` rendering of a value that is
a string or an int. -/
structure ForgeMcp where
  ignoreIsTrue : Bool
  modrinth : Option Str
  curseforge : Option Str
deriving DecidableEq, Repr

/-- One decoded Forge dependency entry (fields of the `dict` the script
reads; `modId = none`: missing or not a string). -/
structure ForgeEntry where
  modId : Option Str
  mandatoryIsTrue : Bool
  versionRange : Option Str
  mcPublish : Option ForgeMcp
deriving DecidableEq, Repr

/-- The dependency loop of `read_forge_dependencies` (lines 211-252); a
`none` list element is a non-`dict` entry, skipped at line 213-214. -/
def read_forge_dependencies_core (entries : List (Option ForgeEntry)) : List Dependency :=
  entries.filterMap (fun oe =>
    match oe with
    | none => none
    | some entry =>
      match entry.modId with
      | none => none
      | some dep_id =>
        if dep_id = ([] : Str) then none
        else if dep_id = toStr "minecraft" then none
        else if ¬ entry.mandatoryIsTrue then none
        else
          match entry.mcPublish with
          | some mcp =>
            if mcp.ignoreIsTrue then none
            else
              some { mod_id := dep_id,
                     version_range := normalizeRange entry.versionRange,
                     modrinth := match mcp.modrinth with
                                 | some mr => if strip mr = [] then none else some (strip mr)
                                 | none => none,
                     curseforge := mcp.curseforge.map strip }
          | none =>
              some { mod_id := dep_id,
                     version_range := normalizeRange entry.versionRange,
                     modrinth := none, curseforge := none })

/-- One decoded entry of `quilt.mod.json`'s `depends` list: a bare id
string, an object, or anything else (skipped). -/
inductive QuiltDepItem where
  | bare (id : Str)
  | obj (id : Option Str) (versions : Option Str) (optionalIsTrue : Bool)
  | other
deriving DecidableEq, Repr

/-- The dependency loop of `read_quilt_dependencies` (lines 287-319). -/
def read_quilt_dependencies_core (depends : List QuiltDepItem)
    (alias_map : Str → AliasPair) : List Dependency :=
  depends.filterMap (fun item =>
    match item with
    | .other => none
    | .bare dep_id =>
        if dep_id ∈ ([toStr "minecraft", toStr "java"] : List Str) then none
        else some { mod_id := dep_id, version_range := toStr "*",
                    modrinth := (alias_map dep_id).modrinth,
                    curseforge := (alias_map dep_id).curseforge }
    | .obj oid versions optionalIsTrue =>
        match oid with
        | none => none
        | some dep_id =>
          if dep_id = ([] : Str) then none
          else if optionalIsTrue then none
          else if dep_id ∈ ([toStr "minecraft", toStr "java"] : List Str) then none
          else some { mod_id := dep_id, version_range := normalizeRange versions,
                      modrinth := (alias_map dep_id).modrinth,
                      curseforge := (alias_map dep_id).curseforge })

/-- `int(x is not None)` alias score of the de-duplication at lines 669-679. -/
def aliasScore (d : Dependency) : Nat :=
  (if d.modrinth ≠ none then 1 else 0) + (if d.curseforge ≠ none then 1 else 0)

/-- One step of the `by_id` dict build (lines 670-679): the key keeps its
first-insertion position, the value is replaced only on a strictly greater
score. -/
def dedupStep (acc : List Dependency) (dep : Dependency) : List Dependency :=
  match acc with
  | [] => [dep]
  | e :: rest =>
      if e.mod_id = dep.mod_id then
        (if aliasScore e < aliasScore dep then dep else e) :: rest
      else e :: dedupStep rest dep

/-- `by_id` as an insertion-ordered association list (lines 669-681). -/
def dedup (deps : List Dependency) : List Dependency := deps.foldl dedupStep []

/-- Python string `<` (lexicographic by code point), for
`sorted(required_deps, key=lambda d: d.mod_id)`. -/
def strLt : Str → Str → Bool
  | [], [] => false
  | [], _ :: _ => true
  | _ :: _, [] => false
  | a :: x, b :: y => if a < b then true else if b < a then false else strLt x y

/-- The reflexive closure of `strLt`, the sort order of the main loop. -/
def strLe (a b : Str) : Bool := ¬ strLt b a

/-- The per-invocation CLI arguments the resolution loop reads. -/
structure Args where
  loader : Str
  minecraft_version : Str
  policy : Str
  strict : Bool

/-- The two catalog responses, keyed by the queried alias; `none` models a
response of the wrong shape (a transport failure aborts the run the same
way). -/
structure Catalogs where
  modrinthResp : Str → Option (List MRVersion)
  curseforgeResp : Str → Option (List CFFile)

/-- One iteration of the resolution loop (lines 684-697): Modrinth if that
alias is truthy, else CurseForge, else fail in strict mode and skip
otherwise (`ok none`). -/
def resolve_step (args : Args) (cats : Catalogs) (dep : Dependency) :
    Except Str (Option ResolvedDependency) :=
  if optTruthy dep.modrinth then
    (resolve_modrinth_pure dep args.loader args.minecraft_version args.policy
      (cats.modrinthResp (dep.modrinth.getD []))).map some
  else if optTruthy dep.curseforge then
    (resolve_curseforge_pure dep args.loader args.minecraft_version args.policy
      (cats.curseforgeResp (dep.curseforge.getD []))).map some
  else if args.strict then
    Except.error (toStr "Required dependency '" ++ dep.mod_id ++
      toStr "' has no mc-publish Modrinth/CurseForge alias in metadata")
  else Except.ok none

/-- The resolution loop (lines 683-697): the first failure aborts. -/
def main_loop (args : Args) (cats : Catalogs) : List Dependency → Except Str (List ResolvedDependency)
  | [] => Except.ok []
  | d :: rest =>
      match resolve_step args cats d with
      | Except.error e => Except.error e
      | Except.ok od =>
          match main_loop args cats rest with
          | Except.error e => Except.error e
          | Except.ok rs => Except.ok (match od with | none => rs | some r => r :: rs)

/-- The pure core of `main` (lines 663-700): extract results are
de-duplicated, sorted by `mod_id` and resolved in order. -/
def main_pure (args : Args) (cats : Catalogs) (deps : List Dependency) :
    Except Str (List ResolvedDependency) :=
  main_loop args cats ((dedup deps).insertionSort (fun a b => strLe a.mod_id b.mod_id))

/-- `json.dumps` of a version string: quote it, escaping quotes and
backslashes (control-character escapes are not modelled; no claim reads the
document body). -/
def jsonDumpsStr (s : Str) : Str :=
  toStr "\"" ++
    (s.map (fun c =>
      if c = '"' then ['\\', '"']
      else if c = '\\' then ['\\', '\\']
      else [c])).flatten ++ toStr "\""

/-- The YAML lines `write_dependencies_yml` emits for one resolved entry
(lines 618-636); the failed `assert`s and the unsupported-type `raise` are
the error cases. -/
def yml_lines_for (dep : ResolvedDependency) : Except Str (List Str) :=
  if dep.source_type = toStr "modrinth" then
    if optTruthy dep.modrinth_id && optTruthy dep.modrinth_version then
      Except.ok [toStr "    - name: " ++ dep.name,
                 toStr "      identifiers:",
                 toStr "        modrinth_id: " ++ dep.modrinth_id.getD [],
                 toStr "      version:",
                 toStr "        default: " ++ jsonDumpsStr (dep.modrinth_version.getD []),
                 toStr "      source:",
                 toStr "        type: modrinth"]
    else Except.error (toStr "AssertionError: modrinth fields")
  else if dep.source_type = toStr "curseforge" then
    if optTruthy dep.curseforge_id && optTruthy dep.curseforge_file_id then
      Except.ok [toStr "    - name: " ++ dep.name,
                 toStr "      identifiers:",
                 toStr "        curseforge_id: " ++ dep.curseforge_id.getD [],
                 toStr "        curseforge_file_id: " ++ dep.curseforge_file_id.getD [],
                 toStr "      source:",
                 toStr "        type: curseforge"]
    else Except.error (toStr "AssertionError: curseforge fields")
  else Except.error (toStr "Unsupported resolved source type: " ++ dep.source_type)

/-- `write_dependencies_yml` (lines 601-639) as the list of lines written. -/
def write_dependencies_yml_pure (resolved : List ResolvedDependency) : Except Str (List Str) :=
  let header := [toStr "version: \"1.0\"", toStr "settings:",
                 toStr "  auto_resolve_latest: false", toStr "",
                 toStr "dependencies:", toStr "  runtime:"]
  if resolved = [] then Except.ok (header ++ [toStr "    []"])
  else (resolved.mapM yml_lines_for).map (fun ls => header ++ ls.flatten)

/-- `main` under the `__main__` guard (lines 707-712): exit status and the
output document, `none` when nothing is written (any exception exits 2
before the output file is opened). -/
def run_main (args : Args) (cats : Catalogs) (deps : List Dependency) :
    Nat × Option (List Str) :=
  match main_pure args cats deps with
  | Except.error _ => (2, none)
  | Except.ok resolved =>
      match write_dependencies_yml_pure resolved with
      | Except.error _ => (2, none)
      | Except.ok doc => (0, some doc)

/-! ### Basic lemmas -/

theorem toStr_eq_iff (a b : String) : toStr a = toStr b ↔ a = b := by
  constructor
  · intro h; exact String.ext h
  · intro h; rw [h]

theorem compare_versions_trichotomy (a b : Str) :
    compare_versions a b = -1 ∨ compare_versions a b = 0 ∨ compare_versions a b = 1 := by
  simp only [compare_versions]
  split_ifs <;> simp

theorem satisfies_cons (v : Str) (c : Constraint) (rest : List Constraint) :
    satisfies_constraints v (c :: rest) =
      (meetsConstraint v c && satisfies_constraints v rest) := by
  have hop : c.op = toStr ">" ∨ c.op = toStr ">=" ∨ c.op = toStr "<" ∨ c.op = toStr "<=" ∨
      c.op = toStr "=" ∨ (c.op ≠ toStr ">" ∧ c.op ≠ toStr ">=" ∧ c.op ≠ toStr "<" ∧
        c.op ≠ toStr "<=" ∧ c.op ≠ toStr "=") := by tauto
  simp only [satisfies_constraints, meetsConstraint]
  rcases hop with ho | ho | ho | ho | ho | ⟨h1, h2, h3, h4, h5⟩
  · rw [ho]
    rcases compare_versions_trichotomy v c.version with h | h | h <;>
      rw [h] <;> simp [toStr_eq_iff]
  · rw [ho]
    rcases compare_versions_trichotomy v c.version with h | h | h <;>
      rw [h] <;> simp [toStr_eq_iff]
  · rw [ho]
    rcases compare_versions_trichotomy v c.version with h | h | h <;>
      rw [h] <;> simp [toStr_eq_iff]
  · rw [ho]
    rcases compare_versions_trichotomy v c.version with h | h | h <;>
      rw [h] <;> simp [toStr_eq_iff]
  · rw [ho]
    rcases compare_versions_trichotomy v c.version with h | h | h <;>
      rw [h] <;> simp [toStr_eq_iff]
  · simp [h1, h2, h3, h4, h5]

theorem satisfies_eq_all (v : Str) :
    ∀ cs, satisfies_constraints v cs = cs.all (meetsConstraint v)
  | [] => rfl
  | c :: rest => by
      rw [satisfies_cons, satisfies_eq_all v rest, List.all_cons]

theorem meets_false_of_bad_op (v : Str) (c : Constraint) (h : c.op ∉ opList) :
    meetsConstraint v c = false := by
  unfold meetsConstraint
  simp only [opList, List.mem_cons, List.not_mem_nil, or_false] at h
  push_neg at h
  obtain ⟨h1, h2, h3, h4, h5⟩ := h
  split_ifs <;> simp_all

theorem lex_of_tupLt : ∀ ka kb : List Nat,
    (if tupLt ka kb then (-1 : Int) else if tupLt kb ka then 1 else 0) = lexCompare ka kb
  | [], [] => rfl
  | [], _ :: _ => rfl
  | _ :: _, [] => rfl
  | a :: x, b :: y => by
      have ih := lex_of_tupLt x y
      unfold tupLt lexCompare
      split_ifs <;> simp_all

theorem digitRuns_nil_of_no_digit : ∀ s : Str, (∀ c ∈ s, isDigitChar c = false) →
    digitRunsAux s none = []
  | [], _ => rfl
  | c :: t, h => by
      unfold digitRunsAux
      rw [h c (List.mem_cons_self c t)]
      simp only [Bool.false_eq_true, if_false]
      exact digitRuns_nil_of_no_digit t (fun d hd => h d (List.mem_cons_of_mem c hd))

theorem tupLt_append : ∀ (ka t : List Nat), t ≠ [] → tupLt ka (ka ++ t) = true
  | [], [], h => absurd rfl h
  | [], _ :: _, _ => rfl
  | _ :: ka, t, h => by
      unfold tupLt
      simp only [List.cons_append, lt_irrefl, if_false]
      exact tupLt_append ka t h

/-! ### Claims C2, C3, C10 -/

/-- C2: `satisfies(v, cs)` is true iff `v` meets every constraint in `cs`
under `compare`; `satisfies(v, [])` is true for every `v`; a constraint
whose operator is not one of `=`, `>`, `>=`, `<`, `<=` makes `satisfies`
return false regardless of `v`. -/
theorem C2_satisfies_iff_every_constraint (v : Str) (cs : List Constraint) :
    (satisfies_constraints v cs = true ↔ ∀ c ∈ cs, meetsConstraint v c = true) ∧
    satisfies_constraints v ([] : List Constraint) = true ∧
    (∀ c ∈ cs, c.op ∉ opList → satisfies_constraints v cs = false) := by
  refine ⟨?_, rfl, ?_⟩
  · rw [satisfies_eq_all]
    exact List.all_eq_true
  · intro c hc hbad
    rw [satisfies_eq_all]
    refine List.all_eq_false.mpr ⟨c, hc, ?_⟩
    simp [meets_false_of_bad_op v c hbad]

/-- Witness for C2 at a concrete unrecognized operator `?`. -/
theorem C2_witness :
    satisfies_constraints (toStr "2") [⟨toStr "?", toStr "1"⟩] = false :=
  (C2_satisfies_iff_every_constraint (toStr "2") [⟨toStr "?", toStr "1"⟩]).2.2
    ⟨toStr "?", toStr "1"⟩ (by decide) (by decide)

/-- C3: `compare(a, b)` is the lexicographic comparison of the integer
tuples of the maximal digit runs of `a` and `b`; a string with no digits is
keyed `(0,)`; `compare("1.10.0", "1.9.0") > 0`. -/
theorem C3_compare_is_lex_on_digit_runs :
    (∀ a b : Str, compare_versions a b = lexCompare (parse_version_key a) (parse_version_key b)) ∧
    (∀ s : Str, (∀ c ∈ s, isDigitChar c = false) → parse_version_key s = [0]) ∧
    compare_versions (toStr "1.10.0") (toStr "1.9.0") = 1 := by
  refine ⟨?_, ?_, by decide⟩
  · intro a b
    simp only [compare_versions]
    exact lex_of_tupLt _ _
  · intro s h
    simp only [parse_version_key]
    rw [digitRuns_nil_of_no_digit s h]
    rfl

/-- Witness for C3 at the digit-free string `abc`. -/
theorem C3_witness :
    (∀ c ∈ toStr "abc", isDigitChar c = false) ∧ parse_version_key (toStr "abc") = [0] :=
  ⟨by decide, C3_compare_is_lex_on_digit_runs.2.1 (toStr "abc") (by decide)⟩

/-- C10: a version whose digit-run tuple is a proper prefix of another's is
strictly smaller under `compare`; `compare("1.0", "1.0.0") = -1`; and
`satisfies("1.0.0", parse_constraints("1.0"))` is false. -/
theorem C10_proper_prefix_smaller :
    (∀ (a b : Str) (t : List Nat), t ≠ [] →
        parse_version_key b = parse_version_key a ++ t → compare_versions a b = -1) ∧
    compare_versions (toStr "1.0") (toStr "1.0.0") = -1 ∧
    satisfies_constraints (toStr "1.0.0") (parse_constraints (toStr "1.0")) = false := by
  refine ⟨?_, by decide, by decide⟩
  · intro a b t ht hb
    simp only [compare_versions]
    rw [hb, tupLt_append _ _ ht]
    simp

/-- Witness for C10 at `a = "1.0"`, `b = "1.0.0"`. -/
theorem C10_witness :
    ([0] ≠ ([] : List Nat) ∧
      parse_version_key (toStr "1.0.0") = parse_version_key (toStr "1.0") ++ [0]) ∧
    compare_versions (toStr "1.0") (toStr "1.0.0") = -1 :=
  ⟨⟨by decide, by decide⟩,
    C10_proper_prefix_smaller.1 (toStr "1.0") (toStr "1.0.0") [0] (by decide) (by decide)⟩


theorem lstrip_cons_of_not_space (a : Char) (t : Str) (ha : pySpace a = false) :
    lstrip (a :: t) = a :: t := by
  simp [lstrip, List.dropWhile_cons, ha]

theorem rstrip_concat_of_not_space (b : Char) (l : Str) (hb : pySpace b = false) :
    rstrip (l ++ [b]) = l ++ [b] := by
  simp [rstrip, List.dropWhile_cons, hb]

theorem strip_edge (a c : Char) (m : Str) (ha : pySpace a = false) (hc : pySpace c = false) :
    strip ((a :: m) ++ [c]) = (a :: m) ++ [c] := by
  have h1 : lstrip ((a :: m) ++ [c]) = (a :: m) ++ [c] := by
    simp [lstrip, List.dropWhile_cons, ha]
  rw [strip, h1, rstrip_concat_of_not_space c _ hc]

theorem head?_dropWhile_false (p : Char → Bool) :
    ∀ (l : Str) (c : Char), (l.dropWhile p).head? = some c → p c = false
  | [], c, h => by simp [List.dropWhile] at h
  | a :: t, c, h => by
      rw [List.dropWhile_cons] at h
      by_cases hp : p a = true
      · rw [if_pos hp] at h
        exact head?_dropWhile_false p t c h
      · rw [if_neg hp] at h
        simp at h
        subst h
        simpa using hp

theorem rstrip_getLast_not_space (u : Str) (c : Char) (h : (rstrip u).getLast? = some c) :
    pySpace c = false := by
  rw [rstrip, List.getLast?_reverse] at h
  exact head?_dropWhile_false pySpace _ _ h

theorem strip_fix_getLast (v : Str) (c : Char) (hv : strip v = v) (hc : v.getLast? = some c) :
    pySpace c = false := by
  rw [← hv, strip] at hc
  exact rstrip_getLast_not_space _ _ hc

theorem strip_cons_fix (a : Char) (v : Str) (ha : pySpace a = false) (hv : strip v = v) :
    strip (a :: v) = a :: v := by
  cases hve : v.getLast? with
  | none =>
      rw [List.getLast?_eq_none_iff] at hve
      subst hve
      have h1 := lstrip_cons_of_not_space a [] ha
      have h2 := rstrip_concat_of_not_space a [] ha
      simp only [List.nil_append] at h2
      rw [strip, h1, h2]
  | some c =>
      have hc := strip_fix_getLast v c hv hve
      obtain ⟨m, rfl⟩ := List.getLast?_eq_some_iff.mp hve
      exact strip_edge a c m ha hc

theorem isSubstr_singleton (c : Char) : ∀ l : Str, isSubstr [c] l = true ↔ c ∈ l
  | [] => by simp [isSubstr]
  | d :: t => by
      rw [isSubstr]
      simp only [startsWithStr, Bool.and_true, Bool.or_eq_true, decide_eq_true_eq,
        isSubstr_singleton c t, List.mem_cons]
      constructor
      · rintro (h1 | h2)
        · exact Or.inl h1.symm
        · exact Or.inr h2
      · rintro (h1 | h2)
        · exact Or.inl h1.symm
        · exact Or.inr h2

theorem splitFirstComma_append (hi : Str) :
    ∀ lo : Str, ',' ∉ lo → splitFirstComma (lo ++ ',' :: hi) = some (lo, hi)
  | [], _ => by simp [splitFirstComma]
  | a :: lo, h => by
      have ha : a ≠ ',' := fun hh => h (hh ▸ List.mem_cons_self a lo)
      rw [List.cons_append, splitFirstComma]
      rw [if_neg (fun hh => ha hh), splitFirstComma_append hi lo (fun hh => h (List.mem_cons_of_mem a hh))]
      rfl


theorem toStr_star : toStr "*" = ['*'] := rfl
theorem toStr_lbrack : toStr "[" = ['['] := rfl
theorem toStr_lparen : toStr "(" = ['('] := rfl
theorem toStr_rbrack : toStr "]" = [']'] := rfl
theorem toStr_rparen : toStr ")" = [')'] := rfl
theorem toStr_caret : toStr "^" = ['^'] := rfl
theorem toStr_tilde : toStr "~" = ['~'] := rfl
theorem toStr_comma : toStr "," = [','] := rfl

theorem startsWithStr_cons_single (d c : Char) (t : Str) :
    startsWithStr (d :: t) [c] = decide (d = c) := by
  simp [startsWithStr]

theorem endsWithStr_concat_single (l : Str) (b c : Char) :
    endsWithStr (l ++ [b]) [c] = decide (b = c) := by
  rw [endsWithStr]
  simp [List.reverse_append, startsWithStr]

theorem parse_constraints_interval (bl br : Char) (lo hi : Str)
    (hbl : bl = '[' ∨ bl = '(') (hbr : br = ']' ∨ br = ')')
    (hlo : ',' ∉ lo) (hslo : strip lo = lo) (hshi : strip hi = hi) :
    parse_constraints ((bl :: (lo ++ [','] ++ hi)) ++ [br]) =
      (if lo ≠ [] then [⟨if bl = '[' then toStr ">=" else toStr ">", lo⟩] else []) ++
      (if hi ≠ [] then [⟨if br = ']' then toStr "<=" else toStr "<", hi⟩] else []) := by
  have hblsp : pySpace bl = false := by rcases hbl with rfl | rfl <;> rfl
  have hbrsp : pySpace br = false := by rcases hbr with rfl | rfl <;> rfl
  have hstrip : strip ((bl :: (lo ++ [','] ++ hi)) ++ [br]) = (bl :: (lo ++ [','] ++ hi)) ++ [br] :=
    strip_edge _ _ _ hblsp hbrsp
  have hne : ¬ ((bl :: (lo ++ [','] ++ hi)) ++ [br] = []) := by simp
  have hnstar : ¬ ((bl :: (lo ++ [','] ++ hi)) ++ [br] = toStr "*") := by
    rw [toStr_star]
    intro h
    have h2 := congrArg List.length h
    simp at h2
  have e4 : startsWithStr ((bl :: (lo ++ [','] ++ hi)) ++ [br]) (toStr "[") = decide (bl = '[') := by
    rw [toStr_lbrack, List.cons_append, startsWithStr_cons_single]
  have e5 : startsWithStr ((bl :: (lo ++ [','] ++ hi)) ++ [br]) (toStr "(") = decide (bl = '(') := by
    rw [toStr_lparen, List.cons_append, startsWithStr_cons_single]
  have e6 : endsWithStr ((bl :: (lo ++ [','] ++ hi)) ++ [br]) (toStr "]") = decide (br = ']') := by
    rw [toStr_rbrack, endsWithStr_concat_single]
  have e7 : endsWithStr ((bl :: (lo ++ [','] ++ hi)) ++ [br]) (toStr ")") = decide (br = ')') := by
    rw [toStr_rparen, endsWithStr_concat_single]
  have e8 : isSubstr (toStr ",") ((bl :: (lo ++ [','] ++ hi)) ++ [br]) = true := by
    rw [toStr_comma]
    exact (isSubstr_singleton _ _).mpr (by simp)
  have eguard : (((startsWithStr ((bl :: (lo ++ [','] ++ hi)) ++ [br]) (toStr "[") ||
      startsWithStr ((bl :: (lo ++ [','] ++ hi)) ++ [br]) (toStr "(")) &&
      (endsWithStr ((bl :: (lo ++ [','] ++ hi)) ++ [br]) (toStr "]") ||
        endsWithStr ((bl :: (lo ++ [','] ++ hi)) ++ [br]) (toStr ")"))) &&
      isSubstr (toStr ",") ((bl :: (lo ++ [','] ++ hi)) ++ [br])) = true := by
    rw [e4, e5, e6, e7, e8]
    rcases hbl with rfl | rfl <;> rcases hbr with rfl | rfl <;> rfl
  have e1 : List.drop 1 ((bl :: (lo ++ [','] ++ hi)) ++ [br]) = (lo ++ [','] ++ hi) ++ [br] := by
    rw [List.cons_append]
    rfl
  have e2 : ((lo ++ [','] ++ hi) ++ [br]).dropLast = lo ++ [','] ++ hi := List.dropLast_concat
  have e3 : splitFirstComma (lo ++ [','] ++ hi) = some (lo, hi) := by
    have h9 : lo ++ [','] ++ hi = lo ++ ',' :: hi := by simp
    rw [h9]
    exact splitFirstComma_append hi lo hlo
  simp only [parse_constraints, hstrip]
  rw [if_neg hne, if_neg hnstar, if_pos eguard, e1, e2, e3]
  simp only [e4, e6, hslo, hshi, decide_eq_true_eq]


theorem parse_constraints_prefix_op (b : Char) (v : Str) (hb : b = '^' ∨ b = '~')
    (hsv : strip v = v) :
    parse_constraints (b :: v) = expand_semver_compat [b] v := by
  have hsp : pySpace b = false := by rcases hb with rfl | rfl <;> rfl
  have hstrip : strip (b :: v) = b :: v := strip_cons_fix _ _ hsp hsv
  have hne : ¬ (b :: v = []) := by simp
  have hnstar : ¬ (b :: v = toStr "*") := by
    rw [toStr_star]
    intro h
    have h1 := (List.cons_eq_cons.mp h).1
    rcases hb with rfl | rfl <;> simp at h1
  have e4 : startsWithStr (b :: v) (toStr "[") = decide (b = '[') := by
    rw [toStr_lbrack, startsWithStr_cons_single]
  have e5 : startsWithStr (b :: v) (toStr "(") = decide (b = '(') := by
    rw [toStr_lparen, startsWithStr_cons_single]
  have e9 : startsWithStr (b :: v) (toStr "^") = decide (b = '^') := by
    rw [toStr_caret, startsWithStr_cons_single]
  have e10 : startsWithStr (b :: v) (toStr "~") = decide (b = '~') := by
    rw [toStr_tilde, startsWithStr_cons_single]
  have hb1 : b ≠ '[' := by rcases hb with rfl | rfl <;> decide
  have hb2 : b ≠ '(' := by rcases hb with rfl | rfl <;> decide
  have eguardf : ((startsWithStr (b :: v) (toStr "[") ||
      startsWithStr (b :: v) (toStr "(")) &&
      (endsWithStr (b :: v) (toStr "]") || endsWithStr (b :: v) (toStr ")")) &&
      isSubstr (toStr ",") (b :: v)) = false := by
    simp [e4, e5, hb1, hb2]
  have eguard : ¬ (((startsWithStr (b :: v) (toStr "[") ||
      startsWithStr (b :: v) (toStr "(")) &&
      (endsWithStr (b :: v) (toStr "]") || endsWithStr (b :: v) (toStr ")")) &&
      isSubstr (toStr ",") (b :: v)) = true) := by
    rw [eguardf]
    simp
  have edrop : List.drop 1 (b :: v) = v := rfl
  simp only [parse_constraints, hstrip]
  rw [if_neg hne, if_neg hnstar, if_neg eguard]
  rcases hb with rfl | rfl
  · rw [if_pos (by rw [e9]; rfl), edrop, hsv]
    rfl
  · rw [if_neg (by rw [e9]; simp), if_pos (by rw [e10]; rfl), edrop, hsv]
    rfl

theorem expand_caret_nonzero (v : Str) (x y z : Nat) (hkey : parse_version_key v = [x, y, z])
    (hx : x ≠ 0) :
    expand_semver_compat ['^'] v =
      [⟨toStr ">=", v⟩, ⟨toStr "<", natToStr (x + 1) ++ toStr ".0.0"⟩] := by
  simp only [expand_semver_compat, hkey]
  have h1 : (toStr "^" : Str) ≠ toStr "~" := by rw [Ne, toStr_eq_iff]; decide
  have h2 : ([x, y, z].headD 0) = x := rfl
  have h3 : ([x, y, z].getD 1 0) = y := rfl
  rw [h2]
  have hc : (['^'] : Str) = toStr "^" := rfl
  rw [hc, if_neg h1, if_pos hx]


theorem expand_caret_zero (v : Str) (y z : Nat) (hkey : parse_version_key v = [0, y, z]) :
    expand_semver_compat ['^'] v =
      [⟨toStr ">=", v⟩, ⟨toStr "<", toStr "0." ++ natToStr (y + 1) ++ toStr ".0"⟩] := by
  simp only [expand_semver_compat, hkey]
  have h1 : (toStr "^" : Str) ≠ toStr "~" := by rw [Ne, toStr_eq_iff]; decide
  have hc : (['^'] : Str) = toStr "^" := rfl
  rw [hc, if_neg h1, if_neg (by simp : ¬ (([0, y, z].headD 0) ≠ 0))]
  simp [List.getD_cons_succ, List.getD_cons_zero]

theorem expand_tilde (v : Str) (x y z : Nat) (hkey : parse_version_key v = [x, y, z]) :
    expand_semver_compat ['~'] v =
      [⟨toStr ">=", v⟩, ⟨toStr "<", natToStr x ++ toStr "." ++ natToStr (y + 1) ++ toStr ".0"⟩] := by
  simp only [expand_semver_compat, hkey]
  have hc : (['~'] : Str) = toStr "~" := rfl
  rw [hc, if_pos rfl]
  simp [List.getD_cons_succ, List.getD_cons_zero]

/-- C1: on a version of the form x.y.z, the caret range expands to
`>= x.y.z` and `< (x+1).0.0` when `x` is nonzero, else `< 0.(y+1).0`; the
tilde range expands to `>= x.y.z` and `< x.(y+1).0`. -/
theorem C1_caret_tilde_expansion (v : Str) (x y z : Nat)
    (hsv : strip v = v) (hkey : parse_version_key v = [x, y, z]) :
    (x ≠ 0 → parse_constraints ('^' :: v) =
        [⟨toStr ">=", v⟩, ⟨toStr "<", natToStr (x + 1) ++ toStr ".0.0"⟩]) ∧
    (x = 0 → parse_constraints ('^' :: v) =
        [⟨toStr ">=", v⟩, ⟨toStr "<", toStr "0." ++ natToStr (y + 1) ++ toStr ".0"⟩]) ∧
    parse_constraints ('~' :: v) =
        [⟨toStr ">=", v⟩, ⟨toStr "<", natToStr x ++ toStr "." ++ natToStr (y + 1) ++ toStr ".0"⟩] := by
  refine ⟨?_, ?_, ?_⟩
  · intro hx
    rw [parse_constraints_prefix_op '^' v (Or.inl rfl) hsv]
    exact expand_caret_nonzero v x y z hkey hx
  · intro hx
    subst hx
    rw [parse_constraints_prefix_op '^' v (Or.inl rfl) hsv]
    exact expand_caret_zero v y z hkey
  · rw [parse_constraints_prefix_op '~' v (Or.inr rfl) hsv]
    exact expand_tilde v x y z hkey

/-- Witness for C1 at the versions 1.2.3 and 0.2.3. -/
theorem C1_witness :
    (strip (toStr "1.2.3") = toStr "1.2.3" ∧ parse_version_key (toStr "1.2.3") = [1, 2, 3]) ∧
    parse_constraints ('^' :: toStr "1.2.3") =
      [⟨toStr ">=", toStr "1.2.3"⟩, ⟨toStr "<", natToStr 2 ++ toStr ".0.0"⟩] ∧
    parse_constraints ('^' :: toStr "0.2.3") =
      [⟨toStr ">=", toStr "0.2.3"⟩, ⟨toStr "<", toStr "0." ++ natToStr 3 ++ toStr ".0"⟩] ∧
    parse_constraints ('~' :: toStr "1.2.3") =
      [⟨toStr ">=", toStr "1.2.3"⟩, ⟨toStr "<", natToStr 1 ++ toStr "." ++ natToStr 3 ++ toStr ".0"⟩] :=
  ⟨⟨by decide, by decide⟩,
   (C1_caret_tilde_expansion (toStr "1.2.3") 1 2 3 (by decide) (by decide)).1 (by decide),
   (C1_caret_tilde_expansion (toStr "0.2.3") 0 2 3 (by decide) (by decide)).2.1 rfl,
   (C1_caret_tilde_expansion (toStr "1.2.3") 1 2 3 (by decide) (by decide)).2.2⟩

/-- C4: a bracketed comma-separated interval yields at most two
constraints — the lower bound with `>=` for `[` and `>` for `(`, the upper
with `<=` for `]` and `<` for `)`, omitted bounds yielding none; in
particular `[1.0,2.0)` is `>=1.0` and `<2.0`, satisfied by 1.9.9 and not by
2.0.0. -/
theorem C4_interval_ranges :
    (∀ (bl br : Char) (lo hi : Str), (bl = '[' ∨ bl = '(') → (br = ']' ∨ br = ')') →
      ',' ∉ lo → strip lo = lo → strip hi = hi →
      parse_constraints ((bl :: (lo ++ [','] ++ hi)) ++ [br]) =
        (if lo ≠ [] then [⟨if bl = '[' then toStr ">=" else toStr ">", lo⟩] else []) ++
        (if hi ≠ [] then [⟨if br = ']' then toStr "<=" else toStr "<", hi⟩] else [])) ∧
    parse_constraints (toStr "[1.0,2.0)") = [⟨toStr ">=", toStr "1.0"⟩, ⟨toStr "<", toStr "2.0"⟩] ∧
    satisfies_constraints (toStr "1.9.9") (parse_constraints (toStr "[1.0,2.0)")) = true ∧
    satisfies_constraints (toStr "2.0.0") (parse_constraints (toStr "[1.0,2.0)")) = false :=
  ⟨parse_constraints_interval, by decide, by decide, by decide⟩

/-- Witness for C4 at the interval from 1.0 inclusive to 2.0 exclusive. -/
theorem C4_witness :
    (',' ∉ toStr "1.0" ∧ strip (toStr "1.0") = toStr "1.0" ∧ strip (toStr "2.0") = toStr "2.0") ∧
    parse_constraints (('[' :: (toStr "1.0" ++ [','] ++ toStr "2.0")) ++ [')']) =
      [⟨toStr ">=", toStr "1.0"⟩, ⟨toStr "<", toStr "2.0"⟩] :=
  ⟨⟨by decide, by decide, by decide⟩, by
    rw [C4_interval_ranges.1 '[' ')' (toStr "1.0") (toStr "2.0") (Or.inl rfl) (Or.inr rfl)
      (by decide) (by decide) (by decide)]
    decide⟩


theorem startsWith_single_elim (c : Char) : ∀ l : Str,
    startsWithStr l [c] = true → ∃ t, l = c :: t
  | [], h => by simp [startsWithStr] at h
  | d :: t, h => by
      rw [startsWithStr_cons_single] at h
      simp at h
      exact ⟨t, by rw [h]⟩

theorem endsWith_single_elim (c : Char) (l : Str) (h : endsWithStr l [c] = true) :
    ∃ m, l = m ++ [c] := by
  rw [endsWithStr] at h
  have h2 : startsWithStr l.reverse [c] = true := by simpa using h
  obtain ⟨t, ht⟩ := startsWith_single_elim c l.reverse h2
  refine ⟨t.reverse, ?_⟩
  have h3 := congrArg List.reverse ht
  simpa using h3

theorem splitFirstComma_none_iff : ∀ l : Str, splitFirstComma l = none ↔ ',' ∉ l
  | [] => by simp [splitFirstComma]
  | c :: t => by
      rw [splitFirstComma]
      by_cases hc : c = ','
      · subst hc
        simp
      · rw [if_neg hc]
        cases hsp : splitFirstComma t with
        | none =>
            have := (splitFirstComma_none_iff t).mp hsp
            simp [List.mem_cons, hc, this]
            intro hcc
            exact absurd hcc.symm hc
        | some p =>
            have : ¬ (splitFirstComma t = none) := by rw [hsp]; simp
            have hmem : ',' ∈ t := by
              by_contra hnm
              exact this ((splitFirstComma_none_iff t).mpr hnm)
            simp [List.mem_cons, hmem]

theorem tokenLoop_eq_filterMap : ∀ parts : List Str,
    tokenLoop parts = parts.filterMap tokenConstraint
  | [] => rfl
  | p :: rest => by
      cases h : tokenConstraint p <;>
        simp [tokenLoop, h, List.filterMap_cons, tokenLoop_eq_filterMap rest]

/-- C8: `parse_constraints` is total — for every input string it returns a
constraint list without raising (the only potentially raising operation, the
two-name unpacking of the interval split, never fires), and the token loop
drops unparseable or empty tokens silently (it is `filterMap`), so a
malformed range only yields fewer constraints, never a parse failure. -/
theorem C8_parse_constraints_total :
    (∀ s : Str, parse_constraints_checked s = some (parse_constraints s)) ∧
    (∀ parts : List Str, tokenLoop parts = parts.filterMap tokenConstraint) := by
  refine ⟨?_, tokenLoop_eq_filterMap⟩
  intro s0
  simp only [parse_constraints, parse_constraints_checked]
  by_cases h1 : strip s0 = []
  · rw [if_pos h1, if_pos h1]
  · rw [if_neg h1, if_neg h1]
    by_cases h2 : strip s0 = toStr "*"
    · rw [if_pos h2, if_pos h2]
    · rw [if_neg h2, if_neg h2]
      by_cases h3 : ((startsWithStr (strip s0) (toStr "[") ||
          startsWithStr (strip s0) (toStr "(")) &&
          (endsWithStr (strip s0) (toStr "]") || endsWithStr (strip s0) (toStr ")")) &&
          isSubstr (toStr ",") (strip s0)) = true
      swap
      · rw [if_neg h3, if_neg h3]
        split_ifs <;> rfl
      rw [if_pos h3, if_pos h3]
      rw [Bool.and_eq_true, Bool.and_eq_true, Bool.or_eq_true, Bool.or_eq_true] at h3
      obtain ⟨⟨hAB, hCD⟩, hE⟩ := h3
      have hhead : ∃ c0 t, strip s0 = c0 :: t ∧ (c0 = '[' ∨ c0 = '(') := by
        rcases hAB with h | h
        · obtain ⟨t, ht⟩ := startsWith_single_elim '[' (strip s0) (by rw [toStr_lbrack] at h; exact h)
          exact ⟨'[', t, ht, Or.inl rfl⟩
        · obtain ⟨t, ht⟩ := startsWith_single_elim '(' (strip s0) (by rw [toStr_lparen] at h; exact h)
          exact ⟨'(', t, ht, Or.inr rfl⟩
      have htail : ∃ m c1, strip s0 = m ++ [c1] ∧ (c1 = ']' ∨ c1 = ')') := by
        rcases hCD with h | h
        · obtain ⟨m, hm⟩ := endsWith_single_elim ']' (strip s0) (by rw [toStr_rbrack] at h; exact h)
          exact ⟨m, ']', hm, Or.inl rfl⟩
        · obtain ⟨m, hm⟩ := endsWith_single_elim ')' (strip s0) (by rw [toStr_rparen] at h; exact h)
          exact ⟨m, ')', hm, Or.inr rfl⟩
      have hcomma : ',' ∈ strip s0 :=
        (isSubstr_singleton ',' (strip s0)).mp (by rw [toStr_comma] at hE; exact hE)
      obtain ⟨c0, t, hst, hc0⟩ := hhead
      obtain ⟨m, c1, hsm, hc1⟩ := htail
      cases m with
      | nil =>
          exfalso
          rw [hst] at hsm
          simp at hsm
          rcases hc0 with rfl | rfl <;> rcases hc1 with rfl | rfl <;> simp_all
      | cons c0' m' =>
          rw [hst, List.cons_append] at hsm
          have hinj := List.cons_eq_cons.mp hsm
          have ht2 : t = m' ++ [c1] := hinj.2
          have hdrop : List.drop 1 (strip s0) = t := by rw [hst]; rfl
          have hdl : t.dropLast = m' := by rw [ht2]; exact List.dropLast_concat
          have hmem : ',' ∈ m' := by
            rw [hst] at hcomma
            rcases List.mem_cons.mp hcomma with h | h
            · exfalso
              rcases hc0 with rfl | rfl <;> simp_all
            · rw [ht2] at h
              rcases List.mem_append.mp h with h' | h'
              · exact h'
              · exfalso
                rcases hc1 with rfl | rfl <;> simp_all
          have hsplit : ∃ p, splitFirstComma ((List.drop 1 (strip s0)).dropLast) = some p := by
            rw [hdrop, hdl]
            cases hsp : splitFirstComma m' with
            | none => exact absurd ((splitFirstComma_none_iff m').mp hsp) (by simp [hmem])
            | some p => exact ⟨p, rfl⟩
          obtain ⟨⟨lo, hi⟩, hp⟩ := hsplit
          rw [hp]


/-- C6 (code bug): the script means to treat an absent or unparseable
`date_published` as the oldest representable instant — that is the only
purpose of the `datetime.min` fallback — but the fallback is offset-naive
while every parsed date is offset-aware, so `candidates.sort` raises
`TypeError` on any candidate list mixing the two and the run aborts with
exit status 2 instead of selecting; on an all-dated list the claimed
selection does happen (`min` picks the earlier-published "1.0.0", `max` the
later "1.1.0"). -/
theorem C6_mixed_timestamp_crash :
    resolve_modrinth_pure ⟨toStr "foo", toStr "*", some (toStr "foo"), none⟩
        (toStr "fabric") (toStr "1.20.1") (toStr "min")
        (some [⟨some (toStr "1.0.0"), some 1⟩, ⟨some (toStr "1.1.0"), none⟩]) =
      Except.error (toStr "TypeError: can't compare offset-naive and offset-aware datetimes") ∧
    run_main ⟨toStr "fabric", toStr "1.20.1", toStr "min", false⟩
        ⟨fun _ => some [⟨some (toStr "1.0.0"), some 1⟩, ⟨some (toStr "1.1.0"), none⟩],
         fun _ => none⟩
        [⟨toStr "foo", toStr "*", some (toStr "foo"), none⟩] = (2, none) ∧
    ((resolve_modrinth_pure ⟨toStr "foo", toStr "*", some (toStr "foo"), none⟩
        (toStr "fabric") (toStr "1.20.1") (toStr "min")
        (some [⟨some (toStr "1.0.0"), some 1⟩, ⟨some (toStr "1.1.0"), some 2⟩])).map
          (fun r => r.modrinth_version) = Except.ok (some (toStr "1.0.0"))) ∧
    ((resolve_modrinth_pure ⟨toStr "foo", toStr "*", some (toStr "foo"), none⟩
        (toStr "fabric") (toStr "1.20.1") (toStr "max")
        (some [⟨some (toStr "1.0.0"), some 1⟩, ⟨some (toStr "1.1.0"), some 2⟩])).map
          (fun r => r.modrinth_version) = Except.ok (some (toStr "1.1.0"))) :=
  ⟨rfl, rfl, rfl, rfl⟩

/-- C5: in the Catalog B (CurseForge) resolver, a range parsing to exactly
one `=` constraint narrows the loader/runtime-filtered files to those whose
fileName or displayName contains the bound as a substring, failing (not
falling back) when the narrowing empties the set; any other constraint list
leaves the filtered set untouched; a narrowing error propagates out of
`resolve_curseforge_pure`. -/
theorem C5_curseforge_exact_narrowing :
    (∀ (dep : Dependency) (files : List CFFile) (v : Str),
      parse_constraints (strip dep.version_range) = [⟨toStr "=", v⟩] →
      cf_narrow dep files =
        (if files.filter (fun f => isSubstr v (f.fileName.getD []) ||
              isSubstr v (f.displayName.getD [])) = [] then
           Except.error (toStr "CurseForge dependency " ++ dep.mod_id ++
             toStr " has exact range '" ++ dep.version_range ++
             toStr "' but no fileName/displayName contains it")
         else Except.ok (files.filter (fun f => isSubstr v (f.fileName.getD []) ||
              isSubstr v (f.displayName.getD []))))) ∧
    (∀ (dep : Dependency) (files : List CFFile),
      (∀ v : Str, parse_constraints (strip dep.version_range) ≠ [⟨toStr "=", v⟩]) →
      cf_narrow dep files = Except.ok files) ∧
    (∀ (dep : Dependency) (loader mc policy label : Str) (data : List CFFile) (e : Str),
      optTruthy dep.curseforge = true →
      (decide ((dep.curseforge.getD []) ≠ ([] : Str)) &&
        (dep.curseforge.getD []).all isDigitChar) = true →
      curseforge_expected_loader_label loader = some label →
      (data.filter (fun f =>
        match f.gameVersions with
        | none => false
        | some gvs => decide (mc ∈ gvs) && decide (label ∈ gvs))) ≠ [] →
      cf_narrow dep (data.filter (fun f =>
        match f.gameVersions with
        | none => false
        | some gvs => decide (mc ∈ gvs) && decide (label ∈ gvs))) = Except.error e →
      resolve_curseforge_pure dep loader mc policy (some data) = Except.error e) := by
  refine ⟨?_, ?_, ?_⟩
  · intro dep files v h
    simp only [cf_narrow, h]
    have hall : ([⟨toStr "=", v⟩] : List Constraint).all (fun c => c.op = toStr "=") = true := by
      simp
    rw [hall]
    simp only []
    by_cases hn : files.filter (fun f => isSubstr v (f.fileName.getD []) ||
        isSubstr v (f.displayName.getD [])) = []
    · rw [if_neg (by simpa using hn), if_pos hn]
    · rw [if_pos hn, if_neg hn]
  · intro dep files hne
    cases hcs : parse_constraints (strip dep.version_range) with
    | nil => simp [cf_narrow, hcs]
    | cons c rest =>
        cases rest with
        | nil =>
            by_cases hop : c.op = toStr "="
            · exfalso
              apply hne c.version
              rw [hcs]
              obtain ⟨op, ver⟩ := c
              simp only at hop
              subst hop
              rfl
            · simp [cf_narrow, hcs, hop]
        | cons c2 rest2 => simp [cf_narrow, hcs]
  · intro dep loader mc policy label data e h1 h2 hlab hfil herr
    simp only [resolve_curseforge_pure, h1, h2, hlab, herr]
    simp [hfil, herr]


/-- Witness for C5 at a concrete exact range and file list. -/
theorem C5_witness :
    parse_constraints (strip (toStr "=1.2.3")) = [⟨toStr "=", toStr "1.2.3"⟩] ∧
    cf_narrow ⟨toStr "foo", toStr "=1.2.3", none, some (toStr "123")⟩
      [⟨some 10, some [toStr "1.20.1"], some 1, some (toStr "foo-1.2.3.jar"), none⟩] =
      Except.ok [⟨some 10, some [toStr "1.20.1"], some 1, some (toStr "foo-1.2.3.jar"), none⟩] :=
  ⟨by decide, by
    rw [C5_curseforge_exact_narrowing.1
      ⟨toStr "foo", toStr "=1.2.3", none, some (toStr "123")⟩
      [⟨some 10, some [toStr "1.20.1"], some 1, some (toStr "foo-1.2.3.jar"), none⟩]
      (toStr "1.2.3") (by decide)]
    rfl⟩

/-- C9 counterexample: the Forge extractor keeps a mandatory dependency on
`java` (the host language runtime) and on `forge` (the loader itself), so
not every extractor excludes the loader and host runtime. -/
theorem C9_counterexample :
    read_forge_dependencies_core [some ⟨some (toStr "java"), true, none, none⟩] =
      [⟨toStr "java", toStr "*", none, none⟩] ∧
    read_forge_dependencies_core [some ⟨some (toStr "forge"), true, none, none⟩] =
      [⟨toStr "forge", toStr "*", none, none⟩] := by
  constructor <;> rfl

/-- C9 (amended): each extractor excludes exactly its own fixed identifier
set — Fabric: minecraft, java, fabricloader; Forge: only minecraft; Quilt:
minecraft and java.  (The original claim — every extractor excludes the
game, the loader and the host runtime — fails: see `C9_counterexample`.) -/
theorem C9_extractor_exclusions :
    (∀ (depends : List (Str × Option Str)) (am : Str → AliasPair) (d : Dependency),
      d ∈ read_fabric_dependencies_core depends am →
      d.mod_id ≠ toStr "minecraft" ∧ d.mod_id ≠ toStr "java" ∧
        d.mod_id ≠ toStr "fabricloader") ∧
    (∀ (entries : List (Option ForgeEntry)) (d : Dependency),
      d ∈ read_forge_dependencies_core entries → d.mod_id ≠ toStr "minecraft") ∧
    (∀ (depends : List QuiltDepItem) (am : Str → AliasPair) (d : Dependency),
      d ∈ read_quilt_dependencies_core depends am →
      d.mod_id ≠ toStr "minecraft" ∧ d.mod_id ≠ toStr "java") := by
  refine ⟨?_, ?_, ?_⟩
  · intro depends am d hd
    rw [read_fabric_dependencies_core, List.mem_filterMap] at hd
    obtain ⟨⟨id, vr⟩, hin, hg⟩ := hd
    split_ifs at hg with h
    simp only [Option.some.injEq] at hg
    subst hg
    simp only [List.mem_cons, List.not_mem_nil, or_false] at h
    push_neg at h
    exact ⟨h.1, h.2.1, h.2.2⟩
  · intro entries d hd
    rw [read_forge_dependencies_core, List.mem_filterMap] at hd
    obtain ⟨oe, hin, hg⟩ := hd
    cases oe with
    | none => simp at hg
    | some entry =>
        simp only [] at hg
        cases hmid : entry.modId with
        | none => rw [hmid] at hg; simp at hg
        | some dep_id =>
            rw [hmid] at hg
            simp only [] at hg
            split_ifs at hg with hemp hmc hman
            cases hmcp : entry.mcPublish with
            | some mcp =>
                rw [hmcp] at hg
                simp only [] at hg
                split_ifs at hg with hig
                simp only [Option.some.injEq] at hg
                subst hg
                exact hmc
            | none =>
                rw [hmcp] at hg
                simp only [Option.some.injEq] at hg
                subst hg
                exact hmc
  · intro depends am d hd
    rw [read_quilt_dependencies_core, List.mem_filterMap] at hd
    obtain ⟨item, hin, hg⟩ := hd
    cases item with
    | other => simp at hg
    | bare dep_id =>
        simp only [] at hg
        split_ifs at hg with h
        simp only [Option.some.injEq] at hg
        subst hg
        simp only [List.mem_cons, List.not_mem_nil, or_false] at h
        push_neg at h
        exact ⟨h.1, h.2⟩
    | obj oid versions optionalIsTrue =>
        cases oid with
        | none => simp at hg
        | some dep_id =>
            simp only [] at hg
            split_ifs at hg with hemp hopt hexc
            simp only [Option.some.injEq] at hg
            subst hg
            simp only [List.mem_cons, List.not_mem_nil, or_false] at hexc
            push_neg at hexc
            exact ⟨hexc.1, hexc.2⟩

/-- Witness for C9 at a concrete Fabric manifest entry. -/
theorem C9_witness :
    (⟨toStr "modmenu", toStr "*", none, none⟩ : Dependency) ∈
      read_fabric_dependencies_core [(toStr "modmenu", none)] (fun _ => ⟨none, none⟩) ∧
    (toStr "modmenu" : Str) ≠ toStr "minecraft" :=
  ⟨by decide,
   (C9_extractor_exclusions.1 [(toStr "modmenu", none)] (fun _ => ⟨none, none⟩)
      ⟨toStr "modmenu", toStr "*", none, none⟩ (by decide)).1⟩


theorem startsWithStr_nil_right : ∀ l : Str, startsWithStr l [] = true
  | [] => rfl
  | _ :: _ => rfl

theorem startsWith_append : ∀ x r : Str, startsWithStr (x ++ r) x = true
  | [], r => startsWithStr_nil_right r
  | c :: x, r => by
      rw [List.cons_append, startsWithStr]
      simp [startsWith_append x r]

theorem isSubstr_of_between : ∀ (hay x : Str), x.IsInfix hay → isSubstr x hay = true
  | [], x, h => by
      obtain ⟨s, t, hst⟩ := h
      have hx : x = [] := by
        cases x with
        | nil => rfl
        | cons c y =>
            exfalso
            have := congrArg List.length hst
            simp at this
      subst hx
      rfl
  | c :: hay, x, h => by
      obtain ⟨s, t, hst⟩ := h
      cases s with
      | nil =>
          rw [isSubstr]
          simp only [List.nil_append] at hst
          rw [← hst, startsWith_append]
          simp
      | cons c' s' =>
          rw [isSubstr]
          rw [List.cons_append, List.cons_append] at hst
          have h2 : x.IsInfix hay := ⟨s', t, (List.cons_eq_cons.mp hst).2⟩
          rw [isSubstr_of_between hay x h2]
          simp

theorem isSubstr_append_middle (pre x suf : Str) : isSubstr x (pre ++ x ++ suf) = true :=
  isSubstr_of_between _ x ⟨pre, suf, rfl⟩

theorem main_loop_error_of_mem (args : Args) (cats : Catalogs) :
    ∀ (l : List Dependency) (d : Dependency) (e : Str),
      d ∈ l → resolve_step args cats d = Except.error e →
      ∃ m, main_loop args cats l = Except.error m
  | [], d, _, h, _ => absurd h (List.not_mem_nil d)
  | d' :: rest, d, e, h, herr => by
      rw [main_loop]
      cases hs : resolve_step args cats d' with
      | error e' => exact ⟨e', rfl⟩
      | ok od =>
          rcases List.mem_cons.mp h with rfl | hmem
          · rw [hs] at herr
            exact absurd herr (by simp)
          · obtain ⟨m, hm⟩ := main_loop_error_of_mem args cats rest d e hmem herr
            rw [hm]
            exact ⟨m, rfl⟩


/-- C7 (amended): if resolution of any dependency in the processed list
fails, the whole run returns exit status 2 with no output document, the
first failure's error propagating; a no-candidate Catalog A failure's
message names the offending dependency, the loader and the runtime version.
(The original claim also said the message names the policy: false, see
`C7_counterexample`.) -/
theorem C7_all_or_nothing :
    (∀ (args : Args) (cats : Catalogs) (deps : List Dependency) (d : Dependency) (e : Str),
      d ∈ (dedup deps).insertionSort (fun a b => strLe a.mod_id b.mod_id) →
      resolve_step args cats d = Except.error e →
      ∃ m, main_pure args cats deps = Except.error m ∧
        run_main args cats deps = (2, none)) ∧
    (∀ (dep : Dependency) (loader mc policy : Str) (vs : List MRVersion),
      optTruthy dep.modrinth = true →
      vs.filter (fun v =>
        match v.version_number with
        | none => false
        | some vn => decide (vn ≠ ([] : Str)) &&
            (decide (parse_constraints dep.version_range = []) ||
             satisfies_constraints vn (parse_constraints dep.version_range))) = [] →
      ∃ m, resolve_modrinth_pure dep loader mc policy (some vs) = Except.error m ∧
        isSubstr dep.mod_id m = true ∧ isSubstr loader m = true ∧ isSubstr mc m = true) := by
  constructor
  · intro args cats deps d e hmem herr
    obtain ⟨m, hm⟩ := main_loop_error_of_mem args cats _ d e hmem herr
    refine ⟨m, ?_, ?_⟩
    · rw [main_pure, hm]
    · rw [run_main, main_pure, hm]
  · intro dep loader mc policy vs h1 hfil
    refine ⟨toStr "No Modrinth versions for " ++ dep.mod_id ++ toStr " (" ++
      dep.modrinth.getD [] ++ toStr ") satisfy range '" ++ dep.version_range ++
      toStr "' for loader=" ++ loader ++ toStr " mc=" ++ mc, ?_, ?_, ?_, ?_⟩
    · simp only [resolve_modrinth_pure, h1, hfil]
      simp
    · have h2 := isSubstr_append_middle (toStr "No Modrinth versions for ") dep.mod_id
        (toStr " (" ++ dep.modrinth.getD [] ++ toStr ") satisfy range '" ++
          dep.version_range ++ toStr "' for loader=" ++ loader ++ toStr " mc=" ++ mc)
      rw [← h2]
      congr 1
      simp [List.append_assoc]
    · have h2 := isSubstr_append_middle (toStr "No Modrinth versions for " ++ dep.mod_id ++
        toStr " (" ++ dep.modrinth.getD [] ++ toStr ") satisfy range '" ++
        dep.version_range ++ toStr "' for loader=") loader (toStr " mc=" ++ mc)
      rw [← h2]
      congr 1
      simp [List.append_assoc]
    · have h2 := isSubstr_append_middle (toStr "No Modrinth versions for " ++ dep.mod_id ++
        toStr " (" ++ dep.modrinth.getD [] ++ toStr ") satisfy range '" ++
        dep.version_range ++ toStr "' for loader=" ++ loader ++ toStr " mc=") mc []
      rw [← h2]
      congr 1
      simp [List.append_assoc]

/-- C7 counterexample: a concrete failing run aborts with exit 2 and no
output, but its error message does not contain the selection policy
(`max`), contradicting the claim that the message names the attempted
loader/runtime/policy context. -/
theorem C7_counterexample :
    run_main ⟨toStr "fabric", toStr "1.20.1", toStr "max", false⟩
      ⟨fun _ => some [⟨some (toStr "1.0.0"), some 1⟩], fun _ => none⟩
      [⟨toStr "foo", toStr "=9.9.9", some (toStr "foo"), none⟩] = (2, none) ∧
    main_pure ⟨toStr "fabric", toStr "1.20.1", toStr "max", false⟩
      ⟨fun _ => some [⟨some (toStr "1.0.0"), some 1⟩], fun _ => none⟩
      [⟨toStr "foo", toStr "=9.9.9", some (toStr "foo"), none⟩] =
      Except.error (toStr "No Modrinth versions for " ++ toStr "foo" ++ toStr " (" ++
        toStr "foo" ++ toStr ") satisfy range '" ++ toStr "=9.9.9" ++
        toStr "' for loader=" ++ toStr "fabric" ++ toStr " mc=" ++ toStr "1.20.1") ∧
    isSubstr (toStr "max")
      (toStr "No Modrinth versions for " ++ toStr "foo" ++ toStr " (" ++
        toStr "foo" ++ toStr ") satisfy range '" ++ toStr "=9.9.9" ++
        toStr "' for loader=" ++ toStr "fabric" ++ toStr " mc=" ++ toStr "1.20.1") = false :=
  ⟨rfl, rfl, by decide⟩

/-- Witness for C7 at a concrete failing run. -/
theorem C7_witness :
    ((⟨toStr "foo", toStr "=9.9.9", some (toStr "foo"), none⟩ : Dependency) ∈
      (dedup [⟨toStr "foo", toStr "=9.9.9", some (toStr "foo"), none⟩]).insertionSort
        (fun a b => strLe a.mod_id b.mod_id)) ∧
    (∃ m, main_pure ⟨toStr "fabric", toStr "1.20.1", toStr "max", false⟩
      ⟨fun _ => some [⟨some (toStr "1.0.0"), some 1⟩], fun _ => none⟩
      [⟨toStr "foo", toStr "=9.9.9", some (toStr "foo"), none⟩] = Except.error m ∧
      run_main ⟨toStr "fabric", toStr "1.20.1", toStr "max", false⟩
        ⟨fun _ => some [⟨some (toStr "1.0.0"), some 1⟩], fun _ => none⟩
        [⟨toStr "foo", toStr "=9.9.9", some (toStr "foo"), none⟩] = (2, none)) :=
  ⟨by decide,
   C7_all_or_nothing.1 ⟨toStr "fabric", toStr "1.20.1", toStr "max", false⟩
     ⟨fun _ => some [⟨some (toStr "1.0.0"), some 1⟩], fun _ => none⟩
     [⟨toStr "foo", toStr "=9.9.9", some (toStr "foo"), none⟩]
     ⟨toStr "foo", toStr "=9.9.9", some (toStr "foo"), none⟩
     (toStr "No Modrinth versions for " ++ toStr "foo" ++ toStr " (" ++
        toStr "foo" ++ toStr ") satisfy range '" ++ toStr "=9.9.9" ++
        toStr "' for loader=" ++ toStr "fabric" ++ toStr " mc=" ++ toStr "1.20.1")
     (by decide) rfl⟩

end MCResolve
